import Mathlib

/-!
Shallow embedding of the rock-paper-scissors particle simulation
(src/src/main.rs).  The `f64`/`f32` arithmetic of the source is modelled by
exact real arithmetic (`ℝ`), `sqrt` by `Real.sqrt`.  The fixed-size array
`[Particle; NUM_PARTICLES]` is modelled as its index map `ℕ → Particle`;
the simulation only ever reads or writes indices `< NUM_PARTICLES`.
-/

namespace RPS

noncomputable section

/-- Source constant `SCREEN_WIDTH: i32 = 80` (used as `f64`). -/
def SCREEN_WIDTH : ℝ := 80

/-- Source constant `SCREEN_HEIGHT: i32 = 80` (used as `f64`). -/
def SCREEN_HEIGHT : ℝ := 80

/-- Source constant `FRAME_DURATION: f32 = 60.0`. -/
def FRAME_DURATION : ℝ := 60

/-- Source constant `NUM_PARTICLES: usize = 25`. -/
def NUM_PARTICLES : ℕ := 25

/-- Source constant `PARTICLE_RADIUS: f64 = 1.5`. -/
def PARTICLE_RADIUS : ℝ := 1.5

/-- Source struct `Vec2f { x: f64, y: f64 }`. -/
structure Vec2f where
  x : ℝ
  y : ℝ

/-- Source `Vec2f::scalar_product`: `(self.x * other.x) + (self.y * other.y)`. -/
def Vec2f.scalar_product (a b : Vec2f) : ℝ :=
  a.x * b.x + a.y * b.y

/-- Source `Vec2f::product`: componentwise scalar multiplication. -/
def Vec2f.product (a : Vec2f) (other : ℝ) : Vec2f :=
  ⟨a.x * other, a.y * other⟩

/-- Source `Vec2f::minus`: componentwise subtraction. -/
def Vec2f.minus (a b : Vec2f) : Vec2f :=
  ⟨a.x - b.x, a.y - b.y⟩

/-- Source `Vec2f::plus`: componentwise addition. -/
def Vec2f.plus (a b : Vec2f) : Vec2f :=
  ⟨a.x + b.x, a.y + b.y⟩

/-- Source `Vec2f::norm`: `self.scalar_product(self).sqrt()`. -/
def Vec2f.norm (a : Vec2f) : ℝ :=
  Real.sqrt (a.scalar_product a)

/-- Source `Vec2f::distance`: `self.minus(*other).norm()`. -/
def Vec2f.distance (a b : Vec2f) : ℝ :=
  (a.minus b).norm

/-- Source enum `Hand { Rock, Paper, Scissors }`. -/
inductive Hand where
  | Rock
  | Paper
  | Scissors
deriving DecidableEq, Fintype

/-- Source `impl Beats for Hand`: Rock ↦ Scissors, Paper ↦ Rock,
Scissors ↦ Paper ("what I beat"). -/
def Hand.beats : Hand → Hand
  | Hand.Rock => Hand.Scissors
  | Hand.Paper => Hand.Rock
  | Hand.Scissors => Hand.Paper

/-- Source struct `Particle { position, velocity, hand }`. -/
structure Particle where
  position : Vec2f
  velocity : Vec2f
  hand : Hand

/-- Per-axis wall bounce, the logic the source repeats for the x and the y
axis in `Particle::check_wall_collision` with the respective bound:
given `(coordinate, velocity component)`, mirror below `0`, reflect above
`bound`, otherwise leave unchanged. -/
def reflectAxis (bound c v : ℝ) : ℝ × ℝ :=
  if c < 0 then (-c, -v)
  else if c > bound then (2 * bound - c, -v)
  else (c, v)

/-- Source `Particle::check_wall_collision`, transcribed statement by
statement: the x-axis if/else-if chain, then the y-axis chain. -/
def Particle.check_wall_collision (p : Particle) : Particle :=
  let p1 :=
    if p.position.x < 0 then
      { p with position := { p.position with x := -p.position.x },
               velocity := { p.velocity with x := -p.velocity.x } }
    else if p.position.x > SCREEN_WIDTH then
      { p with position := { p.position with x := 2 * SCREEN_WIDTH - p.position.x },
               velocity := { p.velocity with x := -p.velocity.x } }
    else p
  if p1.position.y < 0 then
    { p1 with position := { p1.position with y := -p1.position.y },
              velocity := { p1.velocity with y := -p1.velocity.y } }
  else if p1.position.y > SCREEN_HEIGHT then
    { p1 with position := { p1.position with y := 2 * SCREEN_HEIGHT - p1.position.y },
              velocity := { p1.velocity with y := -p1.velocity.y } }
  else p1

/-- Source `Particle::collides_width`:
`self.position.distance(&other.position) < 2.0 * PARTICLE_RADIUS`. -/
def Particle.collides_width (p other : Particle) : Prop :=
  p.position.distance other.position < 2 * PARTICLE_RADIUS

instance (p other : Particle) : Decidable (p.collides_width other) :=
  inferInstanceAs (Decidable (_ < _))

/-- Source `Particle::velocity_projection`:
`line.product(self.velocity.scalar_product(&line) / line.norm().powi(2))`
with `line = other.position - self.position`. -/
def Particle.velocity_projection (p other : Particle) : Vec2f :=
  let line := other.position.minus p.position
  line.product (p.velocity.scalar_product line / line.norm ^ 2)

/-- Source `Particle::update_position`: `position = position + velocity`. -/
def Particle.update_position (p : Particle) : Particle :=
  { p with position := p.position.plus p.velocity }

/-- Source `Particle::handle_match`: `if other.beats() == self.hand
\x7b self.hand = other; \x7d`. -/
def Particle.handle_match (p : Particle) (other : Hand) : Particle :=
  if other.beats = p.hand then { p with hand := other } else p

/-- Source enum `GameMode`. -/
inductive GameMode where
  | Menu
  | Playing
  | End

/-- Source struct `State`; the 25-element particle array is modelled as its
index map. -/
structure State where
  particles : ℕ → Particle
  frame_time : ℝ
  mode : GameMode
  score : ℤ

/-- Source `State::collide`, transcribed statement by statement in the
source's sequential order: both velocity projections are read first, then
the two velocities are written; then the displacement is computed from the
(unchanged) positions and both positions are written; finally
`handle_match` runs on `lhs` and only then on `rhs`, the second call
reading `lhs`'s possibly already-updated hand, exactly as the source does. -/
def State.collide (s : State) (lhs rhs : ℕ) : State :=
  let v_lr := (s.particles lhs).velocity_projection (s.particles rhs)
  let v_rl := (s.particles rhs).velocity_projection (s.particles lhs)
  let ps1 := Function.update s.particles lhs
    { s.particles lhs with velocity := ((s.particles lhs).velocity.minus v_lr).plus v_rl }
  let ps2 := Function.update ps1 rhs
    { ps1 rhs with velocity := ((ps1 rhs).velocity.minus v_rl).plus v_lr }
  let dist := (ps2 rhs).position.distance (ps2 lhs).position
  let displacement := PARTICLE_RADIUS - dist / 2
  let l_to_r := (ps2 rhs).position.minus (ps2 lhs).position
  let displacement_vec := l_to_r.product (displacement / l_to_r.norm)
  let ps3 := Function.update ps2 lhs
    { ps2 lhs with position := (ps2 lhs).position.minus displacement_vec }
  let ps4 := Function.update ps3 rhs
    { ps3 rhs with position := (ps3 rhs).position.plus displacement_vec }
  let ps5 := Function.update ps4 lhs ((ps4 lhs).handle_match ((ps4 rhs).hand))
  let ps6 := Function.update ps5 rhs ((ps5 rhs).handle_match ((ps5 lhs).hand))
  { s with particles := ps6 }

/-- Integration and wall-reflection pass of `State::play`: `for particle in
&mut self.particles \x7b particle.update_position(); particle.check_wall_collision(); \x7d`. -/
def State.updateParticles (s : State) : State :=
  { s with particles := fun i =>
      if i < NUM_PARTICLES then ((s.particles i).update_position).check_wall_collision
      else s.particles i }

/-- Inner collision-scan loop of `State::play`: `for rhs in lhs + 1..NUM_PARTICLES`,
on the first colliding `rhs` call `collide(lhs, rhs)` and `return` from the
`for_each` closure (which only ends the scan for this `lhs`).  Returns the
new state and the resolved `rhs`, if any. -/
def scanInner (s : State) (lhs : ℕ) : List ℕ → State × Option ℕ
  | [] => (s, none)
  | rhs :: rest =>
    if (s.particles lhs).collides_width (s.particles rhs) then
      (s.collide lhs rhs, some rhs)
    else scanInner s lhs rest

/-- Outer collision-scan loop of `State::play`:
`(0..NUM_PARTICLES).for_each(|lhs| ...)`, instrumented to also return the
list of resolved pairs in the order they were resolved. -/
def scanOuter (s : State) : List ℕ → State × List (ℕ × ℕ)
  | [] => (s, [])
  | lhs :: rest =>
    let inner := scanInner s lhs (List.range' (lhs + 1) (NUM_PARTICLES - (lhs + 1)))
    let outer := scanOuter inner.1 rest
    (outer.1, (match inner.2 with
               | some rhs => [(lhs, rhs)]
               | none => []) ++ outer.2)

/-- One logical update of `State::play` (the body of the
`frame_time > FRAME_DURATION` branch, after the accumulator reset):
integrate and reflect every particle, then run the pair scan. -/
def State.logicalUpdate (s : State) : State :=
  (scanOuter s.updateParticles (List.range NUM_PARTICLES)).1

/-- The pairs resolved by the collision scan of one logical update, in
resolution order. -/
def State.resolvedPairs (s : State) : List (ℕ × ℕ) :=
  (scanOuter s.updateParticles (List.range NUM_PARTICLES)).2

/-- Source `State::play` (rendering omitted): accumulate the frame time;
past the threshold, reset the accumulator and run one logical update. -/
def State.play (s : State) (frame_time_ms : ℝ) : State :=
  let s1 := { s with frame_time := s.frame_time + frame_time_ms }
  if s1.frame_time > FRAME_DURATION then State.logicalUpdate { s1 with frame_time := 0 }
  else s1

/-- Fallible variant of `Particle::velocity_projection` in which the
division by `norm(line)^2` is modelled as the spec's division-by-zero
error branch: `none` exactly when the contact normal has zero length
(the source performs the division unconditionally). -/
def Particle.velocity_projectionChecked (p other : Particle) : Option Vec2f :=
  let line := other.position.minus p.position
  if line.norm = 0 then none
  else some (line.product (p.velocity.scalar_product line / line.norm ^ 2))

/-- Fallible variant of `State::collide` with the same statement sequence as
`State.collide`, in which each of the source's divisions by a norm of the
center-to-center vector is modelled as the spec's division-by-zero error
branch (`none` on a zero-length normal). -/
def State.collideChecked (s : State) (lhs rhs : ℕ) : Option State :=
  match (s.particles lhs).velocity_projectionChecked (s.particles rhs),
        (s.particles rhs).velocity_projectionChecked (s.particles lhs) with
  | some v_lr, some v_rl =>
    let ps1 := Function.update s.particles lhs
      { s.particles lhs with velocity := ((s.particles lhs).velocity.minus v_lr).plus v_rl }
    let ps2 := Function.update ps1 rhs
      { ps1 rhs with velocity := ((ps1 rhs).velocity.minus v_rl).plus v_lr }
    let dist := (ps2 rhs).position.distance (ps2 lhs).position
    let displacement := PARTICLE_RADIUS - dist / 2
    let l_to_r := (ps2 rhs).position.minus (ps2 lhs).position
    if l_to_r.norm = 0 then none
    else
      let displacement_vec := l_to_r.product (displacement / l_to_r.norm)
      let ps3 := Function.update ps2 lhs
        { ps2 lhs with position := (ps2 lhs).position.minus displacement_vec }
      let ps4 := Function.update ps3 rhs
        { ps3 rhs with position := (ps3 rhs).position.plus displacement_vec }
      let ps5 := Function.update ps4 lhs ((ps4 lhs).handle_match ((ps4 rhs).hand))
      let ps6 := Function.update ps5 rhs ((ps5 rhs).handle_match ((ps5 lhs).hand))
      some { s with particles := ps6 }
  | _, _ => none

/-- Concrete state used by several witnesses: particle 0 is a Rock at the
origin moving right, particle 1 a Scissors one unit to its right moving
left, the remaining particles are Papers spread along a line. -/
def wState : State :=
  { particles := fun i =>
      if i = 0 then ⟨⟨0, 0⟩, ⟨1, 0⟩, Hand.Rock⟩
      else if i = 1 then ⟨⟨1, 0⟩, ⟨-1, 0⟩, Hand.Scissors⟩
      else ⟨⟨3 * (i : ℝ), 40⟩, ⟨0, 0⟩, Hand.Paper⟩,
    frame_time := 0, mode := GameMode.Playing, score := 0 }

/-- A state whose particles all sit on the x-axis at abscissas given by
`f`, at rest, all holding Rock.  Collisions between such particles depend
only on the abscissas. -/
def axisState (f : ℕ → ℝ) : State :=
  { particles := fun i => ⟨⟨f i, 0⟩, ⟨0, 0⟩, Hand.Rock⟩,
    frame_time := 0, mode := GameMode.Playing, score := 0 }

/-- Abscissas for the C1 counterexample: particles 0, 1 sit one unit apart
(at 0 and 1), particles 2, 3 sit one unit apart (at 6 and 7), and every
other particle `i` sits at `3 * i`, three units from its neighbours and
inside the field for `i < 25`. -/
def exPos (i : ℕ) : ℝ :=
  if i = 1 then 1 else if i = 3 then 7 else 3 * i

/-- The counterexample state for the at-most-one-collision-per-update
claim: two disjoint colliding pairs, (0, 1) and (2, 3). -/
def cState : State := axisState exPos

/-- Abscissas after the scan has resolved the pair (0, 1): particles 0 and
1 were pushed apart to distance `2 * PARTICLE_RADIUS`. -/
def exPos2 (i : ℕ) : ℝ :=
  if i = 0 then -1 else if i = 1 then 2 else exPos i

/-- Abscissas after the scan has additionally resolved the pair (2, 3). -/
def exPos3 (i : ℕ) : ℝ :=
  if i = 2 then 5 else if i = 3 then 8 else exPos2 i

/-- Failing input for the zero-distance claim: all particles coincide at
(5, 5), so particles 0 and 1 collide at distance zero. -/
def zState : State :=
  { particles := fun _ => ⟨⟨5, 5⟩, ⟨1, 0⟩, Hand.Rock⟩,
    frame_time := 0, mode := GameMode.Playing, score := 0 }

/-! Helper lemmas about the embedded operations. -/

/-- The hand produced by `handle_match`, as an if-expression. -/
theorem Particle.handle_match_hand (p : Particle) (h : Hand) :
    (p.handle_match h).hand = if h.beats = p.hand then h else p.hand := by
  unfold Particle.handle_match
  split <;> rfl

/-- The `handle_match` step never moves a particle. -/
theorem Particle.handle_match_position (p : Particle) (h : Hand) :
    (p.handle_match h).position = p.position := by
  unfold Particle.handle_match
  split <;> rfl

/-- The `handle_match` step never changes a velocity. -/
theorem Particle.handle_match_velocity (p : Particle) (h : Hand) :
    (p.handle_match h).velocity = p.velocity := by
  unfold Particle.handle_match
  split <;> rfl

/-- The hands of the two participants after `State.collide`, written with the
source's sequential `handle_match` calls. -/
theorem collide_hands (s : State) (lhs rhs : ℕ) (hne : lhs ≠ rhs) :
    ((s.collide lhs rhs).particles lhs).hand
      = ((s.particles lhs).handle_match ((s.particles rhs).hand)).hand ∧
    ((s.collide lhs rhs).particles rhs).hand
      = ((s.particles rhs).handle_match
          (((s.particles lhs).handle_match ((s.particles rhs).hand)).hand)).hand := by
  unfold State.collide
  constructor <;>
    simp [Function.update_apply, hne, Ne.symm hne, Particle.handle_match_hand]

/-- C5: `beats` is the fixed total mapping Rock ↦ Scissors,
Scissors ↦ Paper, Paper ↦ Rock, a 3-cycle with no fixed point:
`beats (beats (beats h)) = h` and `beats h ≠ h` for every hand `h`. -/
theorem C5_beats_cycle :
    Hand.beats Hand.Rock = Hand.Scissors ∧
    Hand.beats Hand.Scissors = Hand.Paper ∧
    Hand.beats Hand.Paper = Hand.Rock ∧
    (∀ h : Hand, h.beats.beats.beats = h) ∧
    (∀ h : Hand, h.beats ≠ h) := by
  decide

/-- C2: after `State.collide` the two hands are exactly the simultaneous
evaluation of both captures against the pre-collision hand values
(`lhs` becomes `hr` iff `beats hr = hl`, `rhs` becomes `hl` iff
`beats hl = hr`), and applying the two `handle_match` captures in either
order yields that same pair of hands. -/
theorem C2_simultaneous_capture (s : State) (lhs rhs : ℕ) (hne : lhs ≠ rhs) :
    (((s.collide lhs rhs).particles lhs).hand
       = if Hand.beats ((s.particles rhs).hand) = (s.particles lhs).hand
         then (s.particles rhs).hand else (s.particles lhs).hand) ∧
    (((s.collide lhs rhs).particles rhs).hand
       = if Hand.beats ((s.particles lhs).hand) = (s.particles rhs).hand
         then (s.particles lhs).hand else (s.particles rhs).hand) ∧
    (∀ p q : Particle,
      ((p.handle_match q.hand).hand,
        (q.handle_match (p.handle_match q.hand).hand).hand)
        = ((p.handle_match (q.handle_match p.hand).hand).hand,
            (q.handle_match p.hand).hand)) := by
  obtain ⟨h1, h2⟩ := collide_hands s lhs rhs hne
  refine ⟨?_, ?_, ?_⟩
  · rw [h1, Particle.handle_match_hand]
  · rw [h2]
    simp only [Particle.handle_match_hand]
    have key : ∀ hl hr : Hand,
        (if Hand.beats (if Hand.beats hr = hl then hr else hl) = hr
         then (if Hand.beats hr = hl then hr else hl) else hr)
          = if Hand.beats hl = hr then hl else hr := by decide
    exact key _ _
  · intro p q
    simp only [Particle.handle_match_hand]
    have key : ∀ hl hr : Hand,
        ((if Hand.beats hr = hl then hr else hl),
          (if Hand.beats (if Hand.beats hr = hl then hr else hl) = hr
           then (if Hand.beats hr = hl then hr else hl) else hr))
          = ((if Hand.beats (if Hand.beats hl = hr then hl else hr) = hl
              then (if Hand.beats hl = hr then hl else hr) else hl),
             (if Hand.beats hl = hr then hl else hr)) := by decide
    exact key p.hand q.hand

/-- C9: `State.collide lhs rhs` modifies only the particles at indices
`lhs` and `rhs`: every other index is untouched, and the state's
`frame_time`, `mode` and `score` fields are unchanged. -/
theorem C9_collide_frame_effect (s : State) (lhs rhs k : ℕ)
    (h1 : k ≠ lhs) (h2 : k ≠ rhs) :
    (s.collide lhs rhs).particles k = s.particles k ∧
    (s.collide lhs rhs).frame_time = s.frame_time ∧
    (s.collide lhs rhs).mode = s.mode ∧
    (s.collide lhs rhs).score = s.score := by
  unfold State.collide
  refine ⟨?_, rfl, rfl, rfl⟩
  simp [Function.update_apply, h1, h2]

/-- Two planar vectors with equal components are equal. -/
theorem Vec2f.ext_xy {a b : Vec2f} (hx : a.x = b.x) (hy : a.y = b.y) : a = b := by
  cases a
  cases b
  cases hx
  cases hy
  rfl

/-- The squared norm is the dot product with itself. -/
theorem Vec2f.norm_sq (v : Vec2f) : v.norm ^ 2 = v.scalar_product v := by
  unfold Vec2f.norm
  refine Real.sq_sqrt ?_
  unfold Vec2f.scalar_product
  nlinarith [mul_self_nonneg v.x, mul_self_nonneg v.y]

/-- The embedded Euclidean distance is symmetric. -/
theorem Vec2f.distance_comm (a b : Vec2f) : a.distance b = b.distance a := by
  unfold Vec2f.distance Vec2f.norm Vec2f.minus Vec2f.scalar_product
  congr 1
  ring

/-- Scaling a vector scales its norm by the absolute scalar. -/
theorem Vec2f.norm_product (v : Vec2f) (c : ℝ) : (v.product c).norm = |c| * v.norm := by
  unfold Vec2f.norm Vec2f.product Vec2f.scalar_product
  rw [show v.x * c * (v.x * c) + v.y * c * (v.y * c)
        = c ^ 2 * (v.x * v.x + v.y * v.y) by ring,
      Real.sqrt_mul (sq_nonneg c), Real.sqrt_sq_eq_abs]

/-- The separation vector of two distinct points has nonzero squared norm. -/
theorem sep_ne_zero (a b : Vec2f) (h : a ≠ b) :
    (b.minus a).scalar_product (b.minus a) ≠ 0 := by
  unfold Vec2f.minus Vec2f.scalar_product
  dsimp only
  intro hc
  apply h
  have h1 : (b.x - a.x) * (b.x - a.x) = 0 := by
    nlinarith [mul_self_nonneg (b.x - a.x), mul_self_nonneg (b.y - a.y)]
  have h2 : (b.y - a.y) * (b.y - a.y) = 0 := by
    nlinarith [mul_self_nonneg (b.x - a.x), mul_self_nonneg (b.y - a.y)]
  have hx := mul_self_eq_zero.mp h1
  have hy := mul_self_eq_zero.mp h2
  apply Vec2f.ext_xy <;> linarith

/-- C4: the per-axis wall bounce mirrors a negative coordinate, reflects a
coordinate beyond the bound as `2*bound - c`, leaves in-range coordinates
alone (negating the velocity component exactly when it moves the
coordinate); `check_wall_collision` is that bounce applied to each axis
independently with the source's bounds; and the spec's two concrete
examples evaluate as claimed. -/
theorem C4_wall_reflection (B c v : ℝ) (p : Particle) :
    (c < 0 → reflectAxis B c v = (-c, -v)) ∧
    (0 ≤ c → B < c → reflectAxis B c v = (2 * B - c, -v)) ∧
    (0 ≤ c → c ≤ B → reflectAxis B c v = (c, v)) ∧
    (p.check_wall_collision =
      { position := ⟨(reflectAxis SCREEN_WIDTH p.position.x p.velocity.x).1,
                     (reflectAxis SCREEN_HEIGHT p.position.y p.velocity.y).1⟩,
        velocity := ⟨(reflectAxis SCREEN_WIDTH p.position.x p.velocity.x).2,
                     (reflectAxis SCREEN_HEIGHT p.position.y p.velocity.y).2⟩,
        hand := p.hand }) ∧
    (reflectAxis 0 (-3) 2 = (3, -2)) ∧
    (Particle.check_wall_collision ⟨⟨-3, 40⟩, ⟨2, 5⟩, Hand.Rock⟩
      = ⟨⟨3, 40⟩, ⟨-2, 5⟩, Hand.Rock⟩) ∧
    (Particle.check_wall_collision ⟨⟨85, 40⟩, ⟨1, 5⟩, Hand.Rock⟩
      = ⟨⟨75, 40⟩, ⟨-1, 5⟩, Hand.Rock⟩) := by
  refine ⟨?_, ?_, ?_, ?_, ?_, ?_, ?_⟩
  · intro h
    simp [reflectAxis, h]
  · intro h0 hB
    simp [reflectAxis, not_lt.mpr h0, hB]
  · intro h0 hB
    simp [reflectAxis, not_lt.mpr h0, not_lt.mpr hB]
  · obtain ⟨⟨px, py⟩, ⟨vx, vy⟩, hd⟩ := p
    unfold Particle.check_wall_collision reflectAxis
    by_cases h1 : px < 0 <;> by_cases h2 : px > SCREEN_WIDTH <;>
      by_cases h3 : py < 0 <;> by_cases h4 : py > SCREEN_HEIGHT <;>
        simp [h1, h2, h3, h4]
  · norm_num [reflectAxis]
  · norm_num [Particle.check_wall_collision, SCREEN_WIDTH, SCREEN_HEIGHT]
  · norm_num [Particle.check_wall_collision, SCREEN_WIDTH, SCREEN_HEIGHT]

/-- Witness for C4 at a concrete input: the spec's lower-bound example,
obtained from the general branch statement. -/
theorem C4_witness : reflectAxis 0 (-3) 2 = (3, -2) := by
  have h := (C4_wall_reflection 0 (-3) 2 ⟨⟨0, 0⟩, ⟨0, 0⟩, Hand.Rock⟩).1 (by norm_num)
  rw [h]
  norm_num

/-- C8: the collision test holds iff the distance between centers is
strictly below `2 * PARTICLE_RADIUS`; it is symmetric; particles exactly
`2 * PARTICLE_RADIUS` apart do not collide; particles any positive amount
closer do collide. -/
theorem C8_collision_test (a b : Particle) :
    (a.collides_width b ↔ a.position.distance b.position < 2 * PARTICLE_RADIUS) ∧
    (a.collides_width b ↔ b.collides_width a) ∧
    (a.position.distance b.position = 2 * PARTICLE_RADIUS → ¬ a.collides_width b) ∧
    (∀ ε : ℝ, 0 < ε →
      a.position.distance b.position = 2 * PARTICLE_RADIUS - ε → a.collides_width b) := by
  refine ⟨Iff.rfl, ?_, ?_, ?_⟩
  · unfold Particle.collides_width
    rw [Vec2f.distance_comm]
  · intro h
    unfold Particle.collides_width
    rw [h]
    exact lt_irrefl _
  · intro ε hε hd
    unfold Particle.collides_width
    rw [hd]
    linarith

/-- Witness for C8 at a concrete input: two particles two units apart
(distance `2 * PARTICLE_RADIUS - 1`) collide. -/
theorem C8_witness :
    Particle.collides_width ⟨⟨0, 0⟩, ⟨0, 0⟩, Hand.Rock⟩ ⟨⟨0, 2⟩, ⟨0, 0⟩, Hand.Paper⟩ := by
  refine (C8_collision_test _ _).2.2.2 1 (by norm_num) ?_
  unfold Vec2f.distance Vec2f.norm Vec2f.minus Vec2f.scalar_product PARTICLE_RADIUS
  norm_num
  rw [show (4 : ℝ) = 2 ^ 2 by norm_num, Real.sqrt_sq (by norm_num : (0 : ℝ) ≤ 2)]

/-- The velocities of the two participants after `State.collide`: each
keeps its own velocity minus its projection onto the center line plus the
other's projection. -/
theorem collide_velocities (s : State) (lhs rhs : ℕ) (hne : lhs ≠ rhs) :
    ((s.collide lhs rhs).particles lhs).velocity
      = (((s.particles lhs).velocity.minus
          ((s.particles lhs).velocity_projection (s.particles rhs))).plus
          ((s.particles rhs).velocity_projection (s.particles lhs))) ∧
    ((s.collide lhs rhs).particles rhs).velocity
      = (((s.particles rhs).velocity.minus
          ((s.particles rhs).velocity_projection (s.particles lhs))).plus
          ((s.particles lhs).velocity_projection (s.particles rhs))) := by
  unfold State.collide
  constructor <;>
    simp [Function.update_apply, hne, Ne.symm hne, Particle.handle_match_velocity]

/-- The positions of the two participants after `State.collide`: each is
pushed away from the other along the center line by
`PARTICLE_RADIUS - distance/2`. -/
theorem collide_positions (s : State) (lhs rhs : ℕ) (hne : lhs ≠ rhs) :
    ((s.collide lhs rhs).particles lhs).position
      = (s.particles lhs).position.minus
          (((s.particles rhs).position.minus (s.particles lhs).position).product
            ((PARTICLE_RADIUS
                - (s.particles rhs).position.distance (s.particles lhs).position / 2)
              / ((s.particles rhs).position.minus (s.particles lhs).position).norm)) ∧
    ((s.collide lhs rhs).particles rhs).position
      = (s.particles rhs).position.plus
          (((s.particles rhs).position.minus (s.particles lhs).position).product
            ((PARTICLE_RADIUS
                - (s.particles rhs).position.distance (s.particles lhs).position / 2)
              / ((s.particles rhs).position.minus (s.particles lhs).position).norm)) := by
  unfold State.collide
  constructor <;>
    simp [Function.update_apply, hne, Ne.symm hne, Particle.handle_match_position]

/-- Both velocity projections of a colliding pair, written over the single
separation vector `other.position - p.position`; for the reversed
projection the two sign flips of the reversed line cancel. -/
theorem velocity_projection_rev (p other : Particle) :
    (p.velocity_projection other
        = (other.position.minus p.position).product
            ((p.velocity.scalar_product (other.position.minus p.position))
              / ((other.position.minus p.position).scalar_product
                  (other.position.minus p.position)))) ∧
    (other.velocity_projection p
        = (other.position.minus p.position).product
            ((other.velocity.scalar_product (other.position.minus p.position))
              / ((other.position.minus p.position).scalar_product
                  (other.position.minus p.position)))) := by
  constructor
  · simp only [Particle.velocity_projection]
    rw [Vec2f.norm_sq]
  · simp only [Particle.velocity_projection]
    rw [Vec2f.norm_sq]
    apply Vec2f.ext_xy <;>
    · unfold Vec2f.product Vec2f.minus Vec2f.scalar_product
      dsimp only
      ring

/-- C6: the velocity-exchange step of `State.collide` conserves the vector
sum of the two participants' velocities exactly (the projections are
exchanged, not discarded). -/
theorem C6_momentum_conserved (s : State) (lhs rhs : ℕ) (hne : lhs ≠ rhs)
    (hpos : (s.particles lhs).position ≠ (s.particles rhs).position) :
    (((s.collide lhs rhs).particles lhs).velocity).plus
        (((s.collide lhs rhs).particles rhs).velocity)
      = ((s.particles lhs).velocity).plus ((s.particles rhs).velocity) := by
  obtain ⟨hv1, hv2⟩ := collide_velocities s lhs rhs hne
  rw [hv1, hv2]
  apply Vec2f.ext_xy <;>
  · unfold Vec2f.plus Vec2f.minus
    dsimp only
    ring

/-- Witness for C6 at a concrete input: colliding particles 0 and 1 of
`wState` preserves the sum of their velocities. -/
theorem C6_witness :
    (((wState.collide 0 1).particles 0).velocity).plus
        (((wState.collide 0 1).particles 1).velocity)
      = ((wState.particles 0).velocity).plus ((wState.particles 1).velocity) := by
  refine C6_momentum_conserved wState 0 1 (by decide) ?_
  intro h
  have hx := congrArg Vec2f.x h
  norm_num [wState] at hx

/-- C10: the velocity-exchange step of `State.collide` conserves the sum of
the squared velocity norms exactly: each particle keeps its orthogonal
component and swaps its parallel projection with the other's. -/
theorem C10_kinetic_energy_conserved (s : State) (lhs rhs : ℕ) (hne : lhs ≠ rhs)
    (hpos : (s.particles lhs).position ≠ (s.particles rhs).position) :
    ((s.collide lhs rhs).particles lhs).velocity.norm ^ 2
        + ((s.collide lhs rhs).particles rhs).velocity.norm ^ 2
      = (s.particles lhs).velocity.norm ^ 2 + (s.particles rhs).velocity.norm ^ 2 := by
  obtain ⟨hv1, hv2⟩ := collide_velocities s lhs rhs hne
  obtain ⟨hp1, hp2⟩ := velocity_projection_rev (s.particles lhs) (s.particles rhs)
  have hD := sep_ne_zero (s.particles lhs).position (s.particles rhs).position hpos
  rw [hv1, hv2, hp1, hp2, Vec2f.norm_sq, Vec2f.norm_sq, Vec2f.norm_sq, Vec2f.norm_sq]
  revert hD
  unfold Vec2f.plus Vec2f.minus Vec2f.product Vec2f.scalar_product
  dsimp only
  intro hD
  field_simp
  ring

/-- Witness for C10 at a concrete input: colliding particles 0 and 1 of
`wState` preserves the sum of their squared speeds. -/
theorem C10_witness :
    ((wState.collide 0 1).particles 0).velocity.norm ^ 2
        + ((wState.collide 0 1).particles 1).velocity.norm ^ 2
      = (wState.particles 0).velocity.norm ^ 2
        + (wState.particles 1).velocity.norm ^ 2 := by
  refine C10_kinetic_energy_conserved wState 0 1 (by decide) ?_
  intro h
  have hx := congrArg Vec2f.x h
  norm_num [wState] at hx

/-- C7: after `State.collide` on a colliding pair at distinct positions,
the two participants are exactly `2 * PARTICLE_RADIUS` apart. -/
theorem C7_separation (s : State) (lhs rhs : ℕ) (hne : lhs ≠ rhs)
    (hcol : (s.particles lhs).collides_width (s.particles rhs))
    (hpos : (s.particles lhs).position ≠ (s.particles rhs).position) :
    ((s.collide lhs rhs).particles lhs).position.distance
        ((s.collide lhs rhs).particles rhs).position = 2 * PARTICLE_RADIUS := by
  obtain ⟨hp1, hp2⟩ := collide_positions s lhs rhs hne
  have hD := sep_ne_zero (s.particles lhs).position (s.particles rhs).position hpos
  have hD0 : 0 ≤ ((s.particles rhs).position.minus
      (s.particles lhs).position).scalar_product
      ((s.particles rhs).position.minus (s.particles lhs).position) := by
    unfold Vec2f.minus Vec2f.scalar_product
    dsimp only
    nlinarith [mul_self_nonneg ((s.particles rhs).position.x - (s.particles lhs).position.x),
      mul_self_nonneg ((s.particles rhs).position.y - (s.particles lhs).position.y)]
  have hn : 0 < ((s.particles rhs).position.minus (s.particles lhs).position).norm := by
    unfold Vec2f.norm
    exact Real.sqrt_pos.mpr (lt_of_le_of_ne hD0 (Ne.symm hD))
  have hdist : (s.particles rhs).position.distance (s.particles lhs).position
      = ((s.particles rhs).position.minus (s.particles lhs).position).norm := rfl
  rw [hdist] at hp1 hp2
  have hsep : (((s.collide lhs rhs).particles lhs).position.minus
      ((s.collide lhs rhs).particles rhs).position)
        = ((s.particles rhs).position.minus (s.particles lhs).position).product
            (-(1 + 2 * ((PARTICLE_RADIUS
                - ((s.particles rhs).position.minus (s.particles lhs).position).norm / 2)
              / ((s.particles rhs).position.minus (s.particles lhs).position).norm))) := by
    rw [hp1, hp2]
    apply Vec2f.ext_xy <;>
    · unfold Vec2f.plus Vec2f.minus Vec2f.product
      dsimp only
      ring
  unfold Vec2f.distance
  rw [hsep, Vec2f.norm_product]
  set n := ((s.particles rhs).position.minus (s.particles lhs).position).norm with hnn
  have hn0 : n ≠ 0 := ne_of_gt hn
  have hcoef : -(1 + 2 * ((PARTICLE_RADIUS - n / 2) / n)) = -(2 * PARTICLE_RADIUS / n) := by
    field_simp
    ring
  rw [hcoef, abs_neg,
      abs_of_pos (div_pos (by norm_num [PARTICLE_RADIUS]) hn)]
  field_simp

/-- Witness for C7 at a concrete input: after colliding particles 0 and 1
of `wState`, they sit exactly `2 * PARTICLE_RADIUS` apart. -/
theorem C7_witness :
    ((wState.collide 0 1).particles 0).position.distance
        ((wState.collide 0 1).particles 1).position = 2 * PARTICLE_RADIUS := by
  refine C7_separation wState 0 1 (by decide) ?_ ?_
  · unfold Particle.collides_width PARTICLE_RADIUS Vec2f.distance Vec2f.norm
      Vec2f.minus Vec2f.scalar_product
    norm_num [wState, Real.sqrt_one]
  · intro h
    have hx := congrArg Vec2f.x h
    norm_num [wState] at hx

/-- Witness for C2 at a concrete input: colliding the Rock (index 0) with
the Scissors (index 1) of `wState` turns the Scissors into a Rock. -/
theorem C2_witness : ((wState.collide 0 1).particles 1).hand = Hand.Rock := by
  have h := (C2_simultaneous_capture wState 0 1 (by decide)).2.1
  rw [h]
  rfl

/-- Witness for C9 at a concrete input: colliding particles 0 and 1 of
`wState` leaves particle 2 and the scalar state fields unchanged. -/
theorem C9_witness :
    (wState.collide 0 1).particles 2 = wState.particles 2 ∧
    (wState.collide 0 1).frame_time = wState.frame_time ∧
    (wState.collide 0 1).mode = wState.mode ∧
    (wState.collide 0 1).score = wState.score :=
  C9_collide_frame_effect wState 0 1 2 (by decide) (by decide)

/-- Two states with equal fields are equal. -/
theorem State.ext_fields {a b : State} (hp : a.particles = b.particles)
    (hf : a.frame_time = b.frame_time) (hm : a.mode = b.mode)
    (hs : a.score = b.score) : a = b := by
  cases a
  cases b
  cases hp
  cases hf
  cases hm
  cases hs
  rfl

/-- Collision of two axis particles reduces to a quadratic inequality on
their abscissas. -/
theorem axis_collides (f : ℕ → ℝ) (i j : ℕ) :
    ((axisState f).particles i).collides_width ((axisState f).particles j)
      ↔ (f i - f j) ^ 2 < 9 := by
  unfold axisState Particle.collides_width Vec2f.distance Vec2f.norm
    Vec2f.minus Vec2f.scalar_product PARTICLE_RADIUS
  dsimp only
  rw [show (f i - f j) * (f i - f j) + (0 - 0) * (0 - 0) = (f i - f j) ^ 2 by ring,
      show (2 : ℝ) * 1.5 = 3 by norm_num,
      Real.sqrt_lt' (by norm_num : (0 : ℝ) < 3)]
  norm_num

/-- The counterexample abscissas are nonnegative. -/
theorem exPos_nonneg (i : ℕ) : 0 ≤ exPos i := by
  unfold exPos
  split_ifs <;> positivity

/-- The counterexample abscissas stay inside the field. -/
theorem exPos_le (i : ℕ) (hi : i < NUM_PARTICLES) : exPos i ≤ 80 := by
  have hi24 : (i : ℝ) ≤ 24 := by
    have : i ≤ 24 := by
      unfold NUM_PARTICLES at hi
      omega
    exact_mod_cast this
  unfold exPos
  split_ifs <;> [norm_num; norm_num; linarith]

/-- The counterexample abscissas for indices past the special cases. -/
theorem exPos_ge {i : ℕ} (hi : 4 ≤ i) : exPos i = 3 * i := by
  unfold exPos
  rw [if_neg (by omega), if_neg (by omega)]

/-- The post-first-resolution abscissas agree with the original ones from
index 2 on. -/
theorem exPos2_ge {i : ℕ} (hi : 2 ≤ i) : exPos2 i = exPos i := by
  unfold exPos2
  rw [if_neg (by omega), if_neg (by omega)]

/-- The post-second-resolution abscissas past the special cases. -/
theorem exPos3_ge {i : ℕ} (hi : 4 ≤ i) : exPos3 i = 3 * i := by
  unfold exPos3
  rw [if_neg (by omega), if_neg (by omega), exPos2_ge (by omega), exPos_ge (by omega)]

/-- A scan of the inner loop over rhs candidates none of which collide
resolves nothing and leaves the state unchanged. -/
theorem scanInner_none (s : State) (l : ℕ) (rhss : List ℕ)
    (h : ∀ r ∈ rhss, ¬ (s.particles l).collides_width (s.particles r)) :
    scanInner s l rhss = (s, none) := by
  induction rhss with
  | nil => rfl
  | cons r rest ih =>
    unfold scanInner
    rw [if_neg (h r (List.mem_cons_self r rest))]
    exact ih fun r' hr' => h r' (List.mem_cons_of_mem r hr')

/-- An outer scan in which no lhs finds any colliding rhs resolves nothing
and leaves the state unchanged. -/
theorem scanOuter_none (s : State) (lhss : List ℕ)
    (h : ∀ l ∈ lhss, ∀ r ∈ List.range' (l + 1) (NUM_PARTICLES - (l + 1)),
      ¬ (s.particles l).collides_width (s.particles r)) :
    scanOuter s lhss = (s, []) := by
  induction lhss with
  | nil => rfl
  | cons l rest ih =>
    unfold scanOuter
    rw [scanInner_none s l _ (h l (List.mem_cons_self l rest))]
    dsimp only
    rw [ih fun l' hl' => h l' (List.mem_cons_of_mem l hl')]
    rfl

/-- One unfolding of the outer scan on a nonempty index list. -/
theorem scanOuter_cons (s : State) (l : ℕ) (rest : List ℕ) :
    scanOuter s (l :: rest)
      = ((scanOuter
            (scanInner s l (List.range' (l + 1) (NUM_PARTICLES - (l + 1)))).1 rest).1,
         (match (scanInner s l (List.range' (l + 1) (NUM_PARTICLES - (l + 1)))).2 with
          | some rhs => [(l, rhs)]
          | none => [])
           ++ (scanOuter
                (scanInner s l (List.range' (l + 1) (NUM_PARTICLES - (l + 1)))).1
                rest).2) := rfl

/-- The rhs resolved by the inner scan comes from the scanned candidates. -/
theorem scanInner_some_mem (s : State) (l : ℕ) (rhss : List ℕ) (r : ℕ)
    (h : (scanInner s l rhss).2 = some r) : r ∈ rhss := by
  induction rhss with
  | nil => simp [scanInner] at h
  | cons r0 rest ih =>
    unfold scanInner at h
    by_cases hc : (s.particles l).collides_width (s.particles r0)
    · rw [if_pos hc] at h
      obtain rfl : r0 = r := by simpa using h
      exact List.mem_cons_self _ _
    · rw [if_neg hc] at h
      exact List.mem_cons_of_mem _ (ih h)

/-- The lhs components of the resolved pairs form a sublist of the scanned
lhs indices: each lhs resolves at most one pair, in scan order. -/
theorem scanOuter_fst_sublist (s : State) (lhss : List ℕ) :
    ((scanOuter s lhss).2.map Prod.fst).Sublist lhss := by
  induction lhss generalizing s with
  | nil => simp [scanOuter]
  | cons l rest ih =>
    rw [scanOuter_cons]
    rcases hi : (scanInner s l (List.range' (l + 1) (NUM_PARTICLES - (l + 1)))).2
      with _ | r
    · dsimp only
      exact (ih _).cons l
    · dsimp only
      exact (ih _).cons₂ l

/-- Every resolved pair pairs an lhs with a strictly larger in-range rhs. -/
theorem scanOuter_pairs_bound (s : State) (lhss : List ℕ) :
    ∀ p ∈ (scanOuter s lhss).2, p.1 < p.2 ∧ p.2 < NUM_PARTICLES := by
  induction lhss generalizing s with
  | nil =>
    intro p hp
    simp [scanOuter] at hp
  | cons l rest ih =>
    intro p hp
    rw [scanOuter_cons] at hp
    rcases hi : (scanInner s l (List.range' (l + 1) (NUM_PARTICLES - (l + 1)))).2
      with _ | r
    · rw [hi] at hp
      dsimp only at hp
      rw [List.nil_append] at hp
      exact ih _ p hp
    · rw [hi] at hp
      dsimp only at hp
      rcases List.mem_append.mp hp with h1 | h2
      · obtain rfl : p = (l, r) := by simpa using h1
        have hmem := scanInner_some_mem s l _ r hi
        have hb := List.mem_range'_1.mp hmem
        exact ⟨by omega, by omega⟩
      · exact ih _ p h2

/-- C3: the source resolves a collision between coincident particles by
dividing by the zero-length contact normal instead of skipping the pair:
on `zState`, particles 0 and 1 collide (distance 0), and the fallible
embedding of `State::collide`, whose divisions by a zero norm are the
spec's error branch, faults instead of returning a state. -/
theorem C3_zero_distance_fault :
    (zState.particles 0).collides_width (zState.particles 1) ∧
    zState.collideChecked 0 1 = none := by
  constructor
  · unfold zState Particle.collides_width Vec2f.distance Vec2f.norm
      Vec2f.minus Vec2f.scalar_product PARTICLE_RADIUS
    norm_num
  · unfold State.collideChecked Particle.velocity_projectionChecked zState
    norm_num [Vec2f.minus, Vec2f.norm, Vec2f.scalar_product]

/-- Integration and reflection leave the counterexample state unchanged:
all its particles are at rest inside the field. -/
theorem updateParticles_cState : (axisState exPos).updateParticles = axisState exPos := by
  unfold State.updateParticles
  apply State.ext_fields
  case hf => rfl
  case hm => rfl
  case hs => rfl
  funext i
  dsimp only
  by_cases hi : i < NUM_PARTICLES
  · rw [if_pos hi]
    have h1 : (0 : ℝ) ≤ exPos i := exPos_nonneg i
    have h2 : exPos i ≤ 80 := exPos_le i hi
    simp [axisState, Particle.update_position, Particle.check_wall_collision,
      Vec2f.plus, SCREEN_WIDTH, SCREEN_HEIGHT, not_lt.mpr h1, not_lt.mpr h2]
  · rw [if_neg hi]

/-- Resolving the pair (0, 1) of the counterexample state pushes particles
0 and 1 one unit apart each and changes nothing else. -/
theorem collide01 : (axisState exPos).collide 0 1 = axisState exPos2 := by
  unfold State.collide
  apply State.ext_fields
  case hf => rfl
  case hm => rfl
  case hs => rfl
  funext i
  by_cases h0 : i = 0
  · subst h0
    norm_num [Function.update_apply, axisState, Particle.velocity_projection,
      Particle.handle_match, Hand.beats, Vec2f.distance, Vec2f.norm, Vec2f.minus,
      Vec2f.plus, Vec2f.product, Vec2f.scalar_product, PARTICLE_RADIUS,
      exPos, exPos2, Real.sqrt_one]
  · by_cases h1 : i = 1
    · subst h1
      norm_num [Function.update_apply, axisState, Particle.velocity_projection,
        Particle.handle_match, Hand.beats, Vec2f.distance, Vec2f.norm, Vec2f.minus,
        Vec2f.plus, Vec2f.product, Vec2f.scalar_product, PARTICLE_RADIUS,
        exPos, exPos2, Real.sqrt_one]
    · simp [Function.update_apply, h0, h1, axisState, exPos2]

/-- Resolving the pair (2, 3) afterwards pushes particles 2 and 3 one unit
apart each and changes nothing else. -/
theorem collide23 : (axisState exPos2).collide 2 3 = axisState exPos3 := by
  unfold State.collide
  apply State.ext_fields
  case hf => rfl
  case hm => rfl
  case hs => rfl
  funext i
  by_cases h2 : i = 2
  · subst h2
    norm_num [Function.update_apply, axisState, Particle.velocity_projection,
      Particle.handle_match, Hand.beats, Vec2f.distance, Vec2f.norm, Vec2f.minus,
      Vec2f.plus, Vec2f.product, Vec2f.scalar_product, PARTICLE_RADIUS,
      exPos, exPos2, exPos3, Real.sqrt_one]
  · by_cases h3 : i = 3
    · subst h3
      norm_num [Function.update_apply, axisState, Particle.velocity_projection,
        Particle.handle_match, Hand.beats, Vec2f.distance, Vec2f.norm, Vec2f.minus,
        Vec2f.plus, Vec2f.product, Vec2f.scalar_product, PARTICLE_RADIUS,
        exPos, exPos2, exPos3, Real.sqrt_one]
    · simp [Function.update_apply, h2, h3, axisState, exPos3]

/-- The inner scan for lhs 0: the very first candidate, rhs 1, collides and
is resolved. -/
theorem scanA :
    scanInner (axisState exPos) 0 (List.range' (0 + 1) (NUM_PARTICLES - (0 + 1)))
      = (axisState exPos2, some 1) := by
  rw [show List.range' (0 + 1) (NUM_PARTICLES - (0 + 1)) = 1 :: List.range' 2 23 from rfl]
  unfold scanInner
  rw [if_pos ((axis_collides exPos 0 1).mpr (by norm_num [exPos])), collide01]

/-- The inner scan for lhs 1 finds no collision. -/
theorem scanB :
    scanInner (axisState exPos2) 1 (List.range' (1 + 1) (NUM_PARTICLES - (1 + 1)))
      = (axisState exPos2, none) := by
  refine scanInner_none _ _ _ ?_
  intro r hr
  have hb := List.mem_range'_1.mp hr
  rw [axis_collides]
  by_cases h3 : r = 3
  · subst h3
    norm_num [exPos2, exPos]
  · rw [show exPos2 1 = 2 from by norm_num [exPos2],
        exPos2_ge (by omega : 2 ≤ r),
        show exPos r = 3 * r from by
          unfold exPos
          rw [if_neg (by omega), if_neg h3]]
    have h2r : (2 : ℝ) ≤ (r : ℝ) := by
      have : 2 ≤ r := by omega
      exact_mod_cast this
    intro hlt
    nlinarith [h2r, hlt, sq_nonneg ((r : ℝ) - 2)]

/-- The inner scan for lhs 2: the very first candidate, rhs 3, collides and
is resolved. -/
theorem scanC :
    scanInner (axisState exPos2) 2 (List.range' (2 + 1) (NUM_PARTICLES - (2 + 1)))
      = (axisState exPos3, some 3) := by
  rw [show List.range' (2 + 1) (NUM_PARTICLES - (2 + 1)) = 3 :: List.range' 4 21 from rfl]
  unfold scanInner
  rw [if_pos ((axis_collides exPos2 2 3).mpr (by norm_num [exPos2, exPos])), collide23]

/-- The inner scan for lhs 3 finds no collision. -/
theorem scanD :
    scanInner (axisState exPos3) 3 (List.range' (3 + 1) (NUM_PARTICLES - (3 + 1)))
      = (axisState exPos3, none) := by
  refine scanInner_none _ _ _ ?_
  intro r hr
  have hb := List.mem_range'_1.mp hr
  rw [axis_collides]
  rw [show exPos3 3 = 8 from by norm_num [exPos3], exPos3_ge (by omega : 4 ≤ r)]
  have h4r : (4 : ℝ) ≤ (r : ℝ) := by
    have : 4 ≤ r := by omega
    exact_mod_cast this
  intro hlt
  nlinarith [h4r, hlt, sq_nonneg ((r : ℝ) - 4)]

/-- The remaining outer scan, lhs 4 through 24, finds no collision: those
particles sit three units apart. -/
theorem scanRest :
    scanOuter (axisState exPos3) (List.range' 4 21) = (axisState exPos3, []) := by
  refine scanOuter_none _ _ ?_
  intro l hl r hr
  have hbl := List.mem_range'_1.mp hl
  have hbr := List.mem_range'_1.mp hr
  rw [axis_collides, exPos3_ge (by omega : 4 ≤ l), exPos3_ge (by omega : 4 ≤ r)]
  have hlr : (l : ℝ) + 1 ≤ (r : ℝ) := by
    have : l + 1 ≤ r := hbr.1
    exact_mod_cast this
  intro hlt
  nlinarith [hlr, hlt, sq_nonneg ((r : ℝ) - (l : ℝ) - 1)]

/-- C1 counterexample: in the update of `cState`, the scan resolves TWO
pairs, (0, 1) and then (2, 3) — the `return` in the source only ends the
inner loop for the current lhs, so the scan does not stop after the first
resolved pair; the claimed at-most-one-resolution-per-update bound fails. -/
theorem C1_counterexample :
    cState.resolvedPairs = [(0, 1), (2, 3)] ∧
    ¬ cState.resolvedPairs.length ≤ 1 := by
  have hmain : cState.resolvedPairs = [(0, 1), (2, 3)] := by
    unfold cState State.resolvedPairs
    rw [updateParticles_cState]
    rw [show List.range NUM_PARTICLES = 0 :: 1 :: 2 :: 3 :: List.range' 4 21 from rfl]
    rw [scanOuter_cons, scanA]
    dsimp only
    rw [scanOuter_cons, scanB]
    dsimp only
    rw [scanOuter_cons, scanC]
    dsimp only
    rw [scanOuter_cons, scanD]
    dsimp only
    rw [scanRest]
    rfl
  exact ⟨hmain, by rw [hmain]; norm_num⟩

/-- C1 (amended): within one logical update the scan resolves at most one
pair per lhs index — the resolved pairs have pairwise-distinct, strictly
increasing lhs components forming a sublist of `0..NUM_PARTICLES-1`, and
each resolved pair is an in-range pair with lhs < rhs — but not at most
one pair per update. -/
theorem C1_amended_scan (s : State) :
    ((s.resolvedPairs.map Prod.fst).Sublist (List.range NUM_PARTICLES)) ∧
    ((s.resolvedPairs.map Prod.fst).Pairwise fun a b => a < b) ∧
    (∀ p ∈ s.resolvedPairs, p.1 < p.2 ∧ p.2 < NUM_PARTICLES) := by
  unfold State.resolvedPairs
  exact ⟨scanOuter_fst_sublist _ _,
    List.Pairwise.sublist (scanOuter_fst_sublist _ _)
      (List.pairwise_lt_range NUM_PARTICLES),
    scanOuter_pairs_bound _ _⟩

end

end RPS
